import Mathlib

/-!
# Kestrel backend: shallow embedding and verification

A shallow embedding of the Kestrel catalog/social-tracking backend
(`app/models.py`, `app/routes.py`, `app/search_engine.py`) and proofs about
its operations.

Modelling conventions:
* The relational store is a `DB` record of lists: entity tables plus the
  three association tables (`game_genre`, `user_owned_games`,
  `user_now_playing`) from `models.py`, modelled as lists of id pairs.
* Auto-increment primary keys are modelled with explicit `next…Id` counters.
* `datetime`/`date` values are opaque: `PyDate` records which constructor the
  source used (`date.fromtimestamp` or `date.fromisoformat`) together with its
  raw argument; no claim inspects a date value.
* A route backed by `Model.query.get_or_404` returns an `Option` response paired
  with the (unchanged on `none`) store; `none` is the HTTP-layer 404.
* Python dicts read with `.get` are modelled as association lists or records
  with `Option` fields; Python truthiness of a dict is emptiness.
-/

namespace Kestrel

/-- A date value as constructed by the source; never inspected. -/
inductive PyDate where
  | fromTimestamp (ts : Int)
  | fromIso (s : String)
deriving Repr, DecidableEq

/-- Row of the `user` table (`models.py`, class `User`). -/
structure User where
  id : Nat
  username : String
  email : String
  auth0_id : String
deriving Repr, DecidableEq

/-- Row of the `game` table (`models.py`, class `Game`). -/
structure Game where
  id : Nat
  igdb_id : Option Int
  title : String
  description : Option String
  cover_art_url : Option String
  franchise : Option String
  studio : Option String
  release_date : Option PyDate
deriving Repr, DecidableEq

/-- Row of the `genre` table (`models.py`, class `Genre`). -/
structure Genre where
  id : Nat
  name : String
  description : Option String
deriving Repr, DecidableEq

/-- Row of the `comment` table (`models.py`, class `Comment`);
`created_at` is the `datetime.utcnow` default at insert time. -/
structure Comment where
  id : Nat
  content : String
  created_at : Nat
  user_id : Nat
  game_id : Nat
deriving Repr, DecidableEq

/-- The relational store: entity tables, association tables
(`game_genre`, `user_owned_games`, `user_now_playing`) and
auto-increment counters. -/
structure DB where
  users : List User
  games : List Game
  genres : List Genre
  gameGenres : List (Nat × Nat)
  owned : List (Nat × Nat)
  nowPlaying : List (Nat × Nat)
  comments : List Comment
  nextGameId : Nat
  nextGenreId : Nat
  nextCommentId : Nat
deriving Repr, DecidableEq

/-- `Game.query.get(gid)`: primary-key lookup. -/
def DB.findGame (db : DB) (gid : Nat) : Option Game :=
  db.games.find? (fun g => g.id == gid)

/-- HTTP method of the two library-management routes. -/
inductive Method where
  | POST
  | DELETE
deriving Repr, DecidableEq

/-- JSON body of the `manage_user_library` / `manage_now_playing` responses:
a message and the `in_library` / `in_now_playing` flag, plus the status code. -/
structure MembershipResp where
  message : String
  flag : Bool
  status : Nat
deriving Repr, DecidableEq

/-- JSON body of the `remove_from_library` / `remove_from_now_playing`
responses: message and status code only. -/
structure SimpleResp where
  message : String
  status : Nat
deriving Repr, DecidableEq

/-- `manage_user_library` (`routes.py`): `get_or_404` the game, then on POST
append to `owned_games` unless present, on DELETE remove if present.  The user
is the one resolved by `@user_required`; the association row is
`(user_id, game_id)` in `user_owned_games`. -/
def manage_user_library (db : DB) (m : Method) (uid gid : Nat) :
    Option MembershipResp × DB :=
  match db.findGame gid with
  | none => (none, db)
  | some _ =>
    match m with
    | .POST =>
      if (uid, gid) ∈ db.owned then
        (some ⟨"Game already in library", true, 200⟩, db)
      else
        (some ⟨"Game added to library", true, 200⟩,
         { db with owned := db.owned ++ [(uid, gid)] })
    | .DELETE =>
      if (uid, gid) ∈ db.owned then
        (some ⟨"Game removed from library", false, 200⟩,
         { db with owned := db.owned.erase (uid, gid) })
      else
        (some ⟨"Game not in library", false, 200⟩, db)

/-- `manage_now_playing` (`routes.py`): same shape over `user_now_playing`. -/
def manage_now_playing (db : DB) (m : Method) (uid gid : Nat) :
    Option MembershipResp × DB :=
  match db.findGame gid with
  | none => (none, db)
  | some _ =>
    match m with
    | .POST =>
      if (uid, gid) ∈ db.nowPlaying then
        (some ⟨"Game already in Now Playing", true, 200⟩, db)
      else
        (some ⟨"Game added to Now Playing", true, 200⟩,
         { db with nowPlaying := db.nowPlaying ++ [(uid, gid)] })
    | .DELETE =>
      if (uid, gid) ∈ db.nowPlaying then
        (some ⟨"Game removed from Now Playing", false, 200⟩,
         { db with nowPlaying := db.nowPlaying.erase (uid, gid) })
      else
        (some ⟨"Game not in Now Playing", false, 200⟩, db)

/-- `remove_from_library` (`routes.py`): `get_or_404` the game; remove from
`owned_games` with a 200 if present, otherwise answer 404 without mutation. -/
def remove_from_library (db : DB) (uid gid : Nat) : Option SimpleResp × DB :=
  match db.findGame gid with
  | none => (none, db)
  | some _ =>
    if (uid, gid) ∈ db.owned then
      (some ⟨"Game removed from library", 200⟩,
       { db with owned := db.owned.erase (uid, gid) })
    else
      (some ⟨"Game not in library", 404⟩, db)

/-- `remove_from_now_playing` (`routes.py`): same shape over
`user_now_playing`. -/
def remove_from_now_playing (db : DB) (uid gid : Nat) : Option SimpleResp × DB :=
  match db.findGame gid with
  | none => (none, db)
  | some _ =>
    if (uid, gid) ∈ db.nowPlaying then
      (some ⟨"Game removed from Now Playing", 200⟩,
       { db with nowPlaying := db.nowPlaying.erase (uid, gid) })
    else
      (some ⟨"Game not in Now Playing", 404⟩, db)

/-- `get_game_status` (`routes.py`): the `(in_library, in_now_playing)` pair. -/
def get_game_status (db : DB) (uid gid : Nat) : Option (Bool × Bool) :=
  match db.findGame gid with
  | none => none
  | some _ =>
    some (decide ((uid, gid) ∈ db.owned), decide ((uid, gid) ∈ db.nowPlaying))

/-- One entry of the `genres` list in the `create_game` payload:
a dict read only through its `name` key. -/
structure GenreData where
  name : String
deriving Repr, DecidableEq

/-- JSON payload of `create_game` (`routes.py`): `id` and `name` are read with
`data[...]` (required), the rest with `data.get(...)`. -/
structure GameData where
  id : Int
  name : String
  summary : Option String
  cover_url : Option String
  franchise : Option String
  studio : Option String
  first_release_date : Option Int
  genres : Option (List GenreData)
deriving Repr, DecidableEq

/-- The genre loop shared by `create_game` and `update_game` (`routes.py`):
for each name in order, `Genre.query.filter_by(name=...).first()`; if absent,
construct a `Genre(name=...)` and add it to the session (visible to the later
iterations through autoflush).  Returns the updated `genre` table, the updated
id counter, and the list of genre ids appended to `game.genres` (the new
`game_genre` rows), in loop order. -/
def upsertGenres (genres : List Genre) (nextId : Nat) (names : List String) :
    List Genre × Nat × List Nat :=
  match names with
  | [] => (genres, nextId, [])
  | n :: rest =>
    match genres.find? (fun g => g.name == n) with
    | some g =>
      let r := upsertGenres genres nextId rest
      (r.1, r.2.1, g.id :: r.2.2)
    | none =>
      let r := upsertGenres (genres ++ [⟨nextId, n, none⟩]) (nextId + 1) rest
      (r.1, r.2.1, nextId :: r.2.2)

/-- Result of `create_game` (`routes.py`): 400 on a falsy body, 409 carrying
the existing row's id when a game with the same `igdb_id` exists, else 201
echoing the created row. -/
inductive CreateGameResult where
  | badRequest
  | conflict (existingId : Nat)
  | created (g : Game)
deriving Repr, DecidableEq

/-- The `Game(...)` row constructed by `create_game` (note the truthiness
test on `first_release_date`: a 0 timestamp is treated as absent). -/
def newGameRow (db : DB) (d : GameData) : Game :=
  ⟨db.nextGameId, some d.id, d.name, d.summary, d.cover_url, d.franchise, d.studio,
    match d.first_release_date with
    | some ts => if ts == 0 then none else some (.fromTimestamp ts)
    | none => none⟩

/-- `create_game` (`routes.py`): reject a falsy body; look up
`Game.query.filter_by(igdb_id=data['id']).first()` and answer 409 with the
existing id on a hit; otherwise build the `Game` row (`newGameRow`), upsert
the supplied genre names, and commit row plus associations. -/
def create_game (db : DB) (data : Option GameData) : CreateGameResult × DB :=
  match data with
  | none => (.badRequest, db)
  | some d =>
    match db.games.find? (fun g => g.igdb_id == some d.id) with
    | some existing => (.conflict existing.id, db)
    | none =>
      let g : Game := newGameRow db d
      match d.genres with
      | none =>
        (.created g,
         { db with games := db.games ++ [g], nextGameId := db.nextGameId + 1 })
      | some gds =>
        let r := upsertGenres db.genres db.nextGenreId (gds.map GenreData.name)
        (.created g,
         { db with
            games := db.games ++ [g],
            genres := r.1,
            gameGenres := db.gameGenres ++ r.2.2.map (fun i => (g.id, i)),
            nextGameId := db.nextGameId + 1,
            nextGenreId := r.2.1 })

/-- JSON payload of `update_game` (`routes.py`): every field guarded by an
`if key in data` presence test. -/
structure UpdateData where
  title : Option String
  description : Option String
  cover_art_url : Option String
  franchise : Option String
  studio : Option String
  release_date : Option String
  genres : Option (List String)
deriving Repr, DecidableEq

/-- The field updates of `update_game`: each present key overwrites the
corresponding column (`release_date` through `date.fromisoformat`). -/
def applyUpdate (g : Game) (u : UpdateData) : Game :=
  { g with
    title := u.title.getD g.title,
    description := match u.description with
      | some s => some s
      | none => g.description,
    cover_art_url := match u.cover_art_url with
      | some s => some s
      | none => g.cover_art_url,
    franchise := match u.franchise with
      | some s => some s
      | none => g.franchise,
    studio := match u.studio with
      | some s => some s
      | none => g.studio,
    release_date := match u.release_date with
      | some s => some (.fromIso s)
      | none => g.release_date }

/-- `update_game` (`routes.py`): `get_or_404` the game, apply the present
fields, and when `genres` is supplied clear the game's `game_genre` rows
(`game.genres = []`) and re-attach upserted-by-name genres. -/
def update_game (db : DB) (gid : Nat) (u : UpdateData) : Option Game × DB :=
  match db.findGame gid with
  | none => (none, db)
  | some g =>
    let g1 := applyUpdate g u
    let games1 := db.games.map (fun x => if x.id == gid then g1 else x)
    match u.genres with
    | none => (some g1, { db with games := games1 })
    | some names =>
      let r := upsertGenres db.genres db.nextGenreId names
      (some g1,
       { db with
          games := games1,
          genres := r.1,
          gameGenres :=
            db.gameGenres.filter (fun p => p.1 != gid)
              ++ r.2.2.map (fun i => (gid, i)),
          nextGenreId := r.2.1 })

/-- JSON body of a successful `delete_game` response. -/
structure DeleteResp where
  success : Bool
  deleted : Nat
deriving Repr, DecidableEq

/-- `delete_game` (`routes.py`): `get_or_404` the game, remove it from every
owner's library and every current player's now-playing list, delete its
comments (`Comment.query.filter_by(game_id=...).delete()`), and delete the row
(which also drops its `game_genre` association rows). -/
def delete_game (db : DB) (gid : Nat) : Option DeleteResp × DB :=
  match db.findGame gid with
  | none => (none, db)
  | some _ =>
    (some ⟨true, gid⟩,
     { db with
        owned := db.owned.filter (fun p => p.2 != gid),
        nowPlaying := db.nowPlaying.filter (fun p => p.2 != gid),
        comments := db.comments.filter (fun c => c.game_id != gid),
        games := db.games.filter (fun g => g.id != gid),
        gameGenres := db.gameGenres.filter (fun p => p.1 != gid) })

/-- Ordering used for the comment thread of `get_game_details`
(`order_by(Comment.created_at.asc())`). -/
def commentOrder (a b : Comment) : Prop := a.created_at ≤ b.created_at

instance : DecidableRel commentOrder := fun a b => Nat.decLe a.created_at b.created_at

instance : IsTotal Comment commentOrder := ⟨fun a b => Nat.le_total a.created_at b.created_at⟩

instance : IsTrans Comment commentOrder := ⟨fun _ _ _ h1 h2 => Nat.le_trans h1 h2⟩

/-- `get_game_details` (`routes.py`): `get_or_404` the game, then its comments
ordered by creation time, each paired with the looked-up author row
(the source dereferences `comment.user`, which exists under the foreign-key
constraint). -/
def get_game_details (db : DB) (gid : Nat) :
    Option (Game × List (Comment × Option User)) :=
  match db.findGame gid with
  | none => none
  | some g =>
    let cs := List.insertionSort commentOrder
      (db.comments.filter (fun c => c.game_id == gid))
    some (g, cs.map (fun c => (c, db.users.find? (fun u => u.id == c.user_id))))

/-- JSON payload of `add_comment` (`routes.py`): both keys are read with
`data[...]` inside the try block. -/
structure CommentData where
  user_id : Nat
  content : String
deriving Repr, DecidableEq

/-- JSON body of a successful `add_comment` response: the generated id,
the stored content and timestamp, and the embedded author summary. -/
structure CommentResp where
  id : Nat
  content : String
  created_at : Nat
  userId : Nat
  username : String
deriving Repr, DecidableEq

/-- `add_comment` (`routes.py`): inside a bare try/except, read the payload,
insert the `Comment` row and commit; any failure — missing body or keys, or
the commit's foreign-key violation when the game or user id does not exist —
is answered as the 404 `"Game not found"` without a persisted row.  There is
no content validation: any string, including the empty one, is committed.
`now` is the `datetime.utcnow` column default at insert time. -/
def add_comment (db : DB) (gid : Nat) (data : Option CommentData) (now : Nat) :
    Option CommentResp × DB :=
  match data with
  | none => (none, db)
  | some d =>
    match db.findGame gid, db.users.find? (fun u => u.id == d.user_id) with
    | some _, some u =>
      let c : Comment := ⟨db.nextCommentId, d.content, now, d.user_id, gid⟩
      (some ⟨c.id, c.content, c.created_at, u.id, u.username⟩,
       { db with
          comments := db.comments ++ [c],
          nextCommentId := db.nextCommentId + 1 })
    | _, _ => (none, db)

/-- Number of `user_now_playing` rows for a game: the `func.count(User.id)`
of `get_top_games`, one row per joined current player. -/
def playerCount (db : DB) (gid : Nat) : Nat :=
  (db.nowPlaying.filter (fun p => p.2 == gid)).length

/-- Ranking used by `get_top_games` (`order_by(count.desc())`), as a stable
sort on the grouped rows. -/
def topOrder (a b : Game × Nat) : Prop := b.2 ≤ a.2

instance : DecidableRel topOrder := fun a b => Nat.decLe b.2 a.2

instance : IsTotal (Game × Nat) topOrder := ⟨fun a b => Nat.le_total b.2 a.2⟩

instance : IsTrans (Game × Nat) topOrder := ⟨fun _ _ _ h1 h2 => Nat.le_trans h2 h1⟩

/-- `get_top_games` (`routes.py`): inner-join `Game` with its current players
(games with no player produce no joined row), group by game, count the joined
users, order by that count descending and keep the first 10 (`limit(10)`). -/
def get_top_games (db : DB) : List (Game × Nat) :=
  (List.insertionSort topOrder
    ((db.games.filter (fun g => 0 < playerCount db g.id)).map
      (fun g => (g, playerCount db g.id)))).take 10

/-! ## Catalog normalizer (`search_engine.py`, class `IGDBApi`) -/

/-- How a Python f-string renders an optional value: `None` prints as the
literal string `"None"`. -/
def pyFormat : Option String → String
  | none => "None"
  | some s => s

/-- The fixed IGDB image base path and size token of `_process_cover_url`. -/
def coverBase : String := "https://images.igdb.com/igdb/image/upload/t_cover_big/"

/-- `IGDBApi._process_cover_url` (`search_engine.py`): the `cover` dict is an
association list (absent, i.e. `None`, modelled as `none`; `if not cover` is
also true of the empty dict).  For a truthy dict the URL is always built,
interpolating `cover.get('image_id')` — which renders as `"None"` when the
key is missing. -/
def process_cover_url (cover : Option (List (String × String))) : Option String :=
  match cover with
  | none => none
  | some c =>
    if c.isEmpty then none
    else some (coverBase ++ pyFormat (c.lookup "image_id") ++ ".jpg")

/-- One record of the `involved_companies` list passed to
`_process_company_names`: the `id` key (read via `company['id']`, present or
not) and the nested `company.name` path (dereferenced without a guard). -/
structure InvolvedCompany where
  id : Option Nat
  companyName : Option String
deriving Repr, DecidableEq

/-- One record of the secondary `involved_companies` lookup response:
`company.get('id')` and the truthiness of `company.get('developer')`. -/
structure FlagRec where
  id : Option Nat
  developer : Bool
deriving Repr, DecidableEq

/-- The generator expression
`next(developer for developer in companies if developer['id'] == company.get('id'))`:
scan the original records in order; a record without an `id` key raises
`KeyError`, exhaustion raises `StopIteration` — both modelled as `.error`. -/
def findCompany (companies : List InvolvedCompany) (target : Option Nat) :
    Except Unit InvolvedCompany :=
  match companies with
  | [] => .error ()
  | c :: rest =>
    match c.id with
    | none => .error ()
    | some j => if some j == target then .ok c else findCompany rest target

/-- The response loop of `_process_company_names`: for each developer-flagged
record, find the matching original record and read its
`['company']['name']`; a failed match or a missing name raises out of the
loop (`.error`). -/
def companyLoop (companies : List InvolvedCompany) (resp : List FlagRec)
    (acc : List String) : Except Unit (List String) :=
  match resp with
  | [] => .ok acc
  | r :: rest =>
    if r.developer then
      match findCompany companies r.id with
      | .error _ => .error ()
      | .ok c =>
        match c.companyName with
        | none => .error ()
        | some nm => companyLoop companies rest (acc ++ [nm])
    else companyLoop companies rest acc

/-- `IGDBApi._process_company_names` (`search_engine.py`): collect the ids of
the original records that carry one; if none, return `[]` without a request;
otherwise issue the secondary lookup (modelled as the `lookup` argument:
`.error` is a failed request) and run the join loop — every exception,
including the loop's `StopIteration`/`KeyError`, is caught by the
`except Exception` handler and degrades the whole result to `[]`. -/
def process_company_names (companies : List InvolvedCompany)
    (lookup : Except Unit (List FlagRec)) : List String :=
  let companyIds := companies.filterMap InvolvedCompany.id
  if companyIds.isEmpty then []
  else
    match lookup with
    | .error _ => []
    | .ok resp =>
      match companyLoop companies resp [] with
      | .ok names => names
      | .error _ => []

/-- The name a developer-flagged response record contributes when its join
succeeds: the matched original record's `company.name`. -/
def matchedName (companies : List InvolvedCompany) (r : FlagRec) : Option String :=
  if r.developer then
    match findCompany companies r.id with
    | .ok c => c.companyName
    | .error _ => none
  else none

/-- `search_games` route (`routes.py`): read the `query` parameter (defaulting
to the empty string) and return `[]` when it is shorter than 3 characters —
before `IGDBApi()` is even constructed, so no upstream request is issued.
`upstream` stands for the IGDB search; the boolean records whether it was
contacted. -/
def search_games_route {α : Type} (query : String) (upstream : String → List α) :
    List α × Bool :=
  if query.length < 3 then ([], false)
  else (upstream query, true)

/-! ## Concrete sample stores (used by witnesses and counterexamples) -/

/-- A game row as created by the test helper (`igdb_id=12345`). -/
def gameA : Game := ⟨1, some 12345, "Test Game", some "A test game", none, none, none, none⟩

/-- A second game row. -/
def gameB : Game := ⟨2, some 777, "Other Game", none, none, none, none, none⟩

/-- A user row as created by the test helper. -/
def userA : User := ⟨1, "testuser", "test@example.com", "auth0|123456"⟩

/-- A store with one user and two games; the user owns and plays `gameB`
only, and `gameB` carries one comment. -/
def dbW : DB where
  users := [userA]
  games := [gameA, gameB]
  genres := [⟨1, "RPG", none⟩]
  gameGenres := [(2, 1)]
  owned := [(1, 2)]
  nowPlaying := [(1, 2)]
  comments := [⟨1, "Great game!", 10, 1, 2⟩]
  nextGameId := 3
  nextGenreId := 2
  nextCommentId := 2

/-- An empty store. -/
def db0 : DB := ⟨[], [], [], [], [], [], [], 1, 1, 1⟩

/-- An ingestion payload naming the genre "RPG". -/
def dRpg1 : GameData := ⟨101, "Game One", none, none, none, none, none, some [⟨"RPG"⟩]⟩

/-- A second ingestion payload naming the same genre "RPG". -/
def dRpg2 : GameData := ⟨102, "Game Two", none, none, none, none, none, some [⟨"RPG"⟩]⟩

/-- A non-empty cover dict that carries no `image_id` key. -/
def coverNoImage : List (String × String) := [("url", "thumb123")]

/-- An involved-company record with id 1 whose company is named
"Alpha Studio". -/
def coAlpha : InvolvedCompany := ⟨some 1, some "Alpha Studio"⟩

/-- A lookup response flagging two developer ids, of which only id 1 has a
matching original record. -/
def respUnmatched : List FlagRec := [⟨some 1, true⟩, ⟨some 2, true⟩]

/-! ## Lemmas -/

/-- A game with the requested id makes the primary-key lookup succeed with a
row of that id. -/
theorem findGame_of_mem {db : DB} {gid : Nat} {g : Game}
    (hg : g ∈ db.games) (hid : g.id = gid) :
    ∃ g', db.findGame gid = some g' ∧ g' ∈ db.games ∧ g'.id = gid := by
  rcases h : db.findGame gid with _ | g'
  · exact absurd (of_decide_eq_true (by simpa using List.find?_eq_none.mp h g hg))
      (by simp [hid])
  · exact ⟨g', rfl, List.mem_of_find?_eq_some h,
      by simpa using List.find?_some h⟩

/-- A membership relation that satisfies the association table's primary-key
constraint holds each present pair exactly once. -/
theorem count_eq_one_of_nodup_mem {l : List (Nat × Nat)} {p : Nat × Nat}
    (hnd : l.Nodup) (hp : p ∈ l) : l.count p = 1 := by
  induction l with
  | nil => cases hp
  | cons a t ih =>
    obtain ⟨ha, ht⟩ := List.nodup_cons.mp hnd
    rcases List.mem_cons.mp hp with rfl | hp'
    · rw [List.count_cons_self, List.count_eq_zero.mpr ha]
    · have hne : p ≠ a := fun h => ha (h ▸ hp')
      rw [List.count_cons_of_ne hne, ih ht hp']

/-- A list whose entries are pairwise distinct keeps at most one element
satisfying a predicate that identifies its satisfying elements. -/
theorem length_filter_le_one {α : Type} {l : List α} {p : α → Bool}
    (hnd : l.Nodup) (huniq : ∀ a ∈ l, ∀ b ∈ l, p a = true → p b = true → a = b) :
    (l.filter p).length ≤ 1 := by
  induction l with
  | nil => simp
  | cons a t ih =>
    obtain ⟨ha, ht⟩ := List.nodup_cons.mp hnd
    by_cases hpa : p a
    · have hnil : t.filter p = [] := by
        refine List.filter_eq_nil_iff.mpr fun y hy hpy => ?_
        exact ha (huniq a (List.mem_cons_self a t) y (List.mem_cons_of_mem a hy) hpa hpy ▸ hy)
      simp [List.filter_cons, hpa, hnil]
    · simpa [List.filter_cons, hpa] using
        ih ht fun x hx y hy => huniq x (List.mem_cons_of_mem a hx) y (List.mem_cons_of_mem a hy)

/-! ## C1 — idempotent membership add -/

/-- C1: adding a game already present in the user's owned (resp. now-playing)
relation answers "already present" with the flag `true` and mutates nothing;
after any add the pair sits in the relation exactly once; and a second add is
a no-op on the state reached by the first. -/
theorem membership_add_idempotent (db : DB) (uid gid : Nat)
    (hgame : ∃ g ∈ db.games, g.id = gid)
    (hndO : db.owned.Nodup) (hndN : db.nowPlaying.Nodup) :
    (((uid, gid) ∈ db.owned →
        manage_user_library db .POST uid gid =
          (some ⟨"Game already in library", true, 200⟩, db)) ∧
      (manage_user_library db .POST uid gid).2.owned.count (uid, gid) = 1 ∧
      (manage_user_library (manage_user_library db .POST uid gid).2 .POST uid gid).2 =
        (manage_user_library db .POST uid gid).2) ∧
    (((uid, gid) ∈ db.nowPlaying →
        manage_now_playing db .POST uid gid =
          (some ⟨"Game already in Now Playing", true, 200⟩, db)) ∧
      (manage_now_playing db .POST uid gid).2.nowPlaying.count (uid, gid) = 1 ∧
      (manage_now_playing (manage_now_playing db .POST uid gid).2 .POST uid gid).2 =
        (manage_now_playing db .POST uid gid).2) := by
  obtain ⟨g, hg, hid⟩ := hgame
  obtain ⟨g', hf, -, -⟩ := findGame_of_mem hg hid
  constructor
  · by_cases hmem : (uid, gid) ∈ db.owned
    · refine ⟨fun _ => ?_, ?_, ?_⟩ <;>
        simp [manage_user_library, hf, hmem, count_eq_one_of_nodup_mem hndO hmem]
    · refine ⟨fun h => absurd h hmem, ?_, ?_⟩
      · simp [manage_user_library, hf, hmem, List.count_append,
          List.count_eq_zero.mpr hmem]
      · have hf1 : DB.findGame { db with owned := db.owned ++ [(uid, gid)] } gid
            = some g' := hf
        simp [manage_user_library, hf, hmem, hf1]
  · by_cases hmem : (uid, gid) ∈ db.nowPlaying
    · refine ⟨fun _ => ?_, ?_, ?_⟩ <;>
        simp [manage_now_playing, hf, hmem, count_eq_one_of_nodup_mem hndN hmem]
    · refine ⟨fun h => absurd h hmem, ?_, ?_⟩
      · simp [manage_now_playing, hf, hmem, List.count_append,
          List.count_eq_zero.mpr hmem]
      · have hf1 : DB.findGame { db with nowPlaying := db.nowPlaying ++ [(uid, gid)] } gid
            = some g' := hf
        simp [manage_now_playing, hf, hmem, hf1]

/-- C1 witness: on the sample store, adding game 1 for user 1 leaves exactly
one `(1, 1)` row in each relation, and the double add equals the single add. -/
theorem membership_add_idempotent_witness :
    (manage_user_library dbW .POST 1 1).2.owned.count (1, 1) = 1 ∧
    (manage_user_library (manage_user_library dbW .POST 1 1).2 .POST 1 1).2 =
      (manage_user_library dbW .POST 1 1).2 ∧
    (manage_now_playing dbW .POST 1 1).2.nowPlaying.count (1, 1) = 1 := by
  have h := membership_add_idempotent dbW 1 1 (by decide) (by decide) (by decide)
  exact ⟨h.1.2.1, h.1.2.2, h.2.2.1⟩

/-! ## C2 — membership remove of a non-member -/

/-- C2 counterexample: in the sample store, game 1 exists and is not in user
1's library, yet `remove_from_library` answers the NotFound status 404 — the
removal of a non-member surfaces as an error for a valid game id, refuting
the claim that it never does. -/
theorem remove_nonmember_answers_404 :
    (∃ g ∈ dbW.games, g.id = 1) ∧ (1, 1) ∉ dbW.owned ∧
    remove_from_library dbW 1 1 = (some ⟨"Game not in library", 404⟩, dbW) ∧
    (remove_from_library dbW 1 1).1.map SimpleResp.status ≠ some 200 := by
  decide

/-- C2 amended: for a valid game id absent from the user's relation, no
endpoint mutates the store and each reports "not present"; the
`manage_user_library` / `manage_now_playing` DELETE branches do so as a
non-error 200, but the dedicated `remove_from_library` /
`remove_from_now_playing` routes answer it with the NotFound status 404. -/
theorem membership_remove_nonmember (db : DB) (uid gid : Nat)
    (hgame : ∃ g ∈ db.games, g.id = gid)
    (habsO : (uid, gid) ∉ db.owned) (habsN : (uid, gid) ∉ db.nowPlaying) :
    manage_user_library db .DELETE uid gid =
      (some ⟨"Game not in library", false, 200⟩, db) ∧
    manage_now_playing db .DELETE uid gid =
      (some ⟨"Game not in Now Playing", false, 200⟩, db) ∧
    remove_from_library db uid gid = (some ⟨"Game not in library", 404⟩, db) ∧
    remove_from_now_playing db uid gid =
      (some ⟨"Game not in Now Playing", 404⟩, db) := by
  obtain ⟨g, hg, hid⟩ := hgame
  obtain ⟨g', hf, -, -⟩ := findGame_of_mem hg hid
  refine ⟨?_, ?_, ?_, ?_⟩ <;>
    simp [manage_user_library, manage_now_playing, remove_from_library,
      remove_from_now_playing, hf, habsO, habsN]

/-- C2 witness: the amended behaviour on the sample store. -/
theorem membership_remove_nonmember_witness :
    manage_user_library dbW .DELETE 1 1 =
      (some ⟨"Game not in library", false, 200⟩, dbW) ∧
    remove_from_now_playing dbW 1 1 =
      (some ⟨"Game not in Now Playing", 404⟩, dbW) := by
  have h := membership_remove_nonmember dbW 1 1 (by decide) (by decide) (by decide)
  exact ⟨h.1, h.2.2.2⟩

/-! ## C3 — catalog ingestion idempotent on external id -/

/-- Searching an appended list starts over on the right part when the left
part has no hit. -/
theorem find?_append_of_none {α : Type} {l₁ l₂ : List α} {p : α → Bool}
    (h : l₁.find? p = none) : (l₁ ++ l₂).find? p = l₂.find? p := by
  induction l₁ with
  | nil => rfl
  | cons a t ih =>
    have hpa : p a = false := by
      simpa using List.find?_eq_none.mp h a (List.mem_cons_self a t)
    rw [List.find?_cons_of_neg _ (by simp [hpa])] at h
    rw [List.cons_append, List.find?_cons_of_neg _ (by simp [hpa])]
    exact ih h

/-- C3: under the store's unique constraints (primary key on `game.id`,
uniqueness of non-null `igdb_id`), `create_game` answers Conflict exactly when
a row with the submitted external id already exists; a Conflict carries that
row's id and mutates nothing; afterwards exactly one row carries the external
id; and resubmitting a successfully ingested record answers Conflict with the
id just created, again without mutation. -/
theorem create_game_external_id_unique (db : DB) (d : GameData)
    (hids : (db.games.map Game.id).Nodup)
    (huniq : ∀ g1 ∈ db.games, ∀ g2 ∈ db.games,
      g1.igdb_id = g2.igdb_id → g1.igdb_id ≠ none → g1 = g2) :
    ((∃ g ∈ db.games, g.igdb_id = some d.id) ↔
      ∃ i, (create_game db (some d)).1 = .conflict i) ∧
    (∀ g ∈ db.games, g.igdb_id = some d.id →
      (create_game db (some d)).1 = .conflict g.id ∧
      (create_game db (some d)).2 = db) ∧
    ((create_game db (some d)).2.games.filter
        (fun g => g.igdb_id == some d.id)).length = 1 ∧
    ((∀ g ∈ db.games, g.igdb_id ≠ some d.id) → ∀ d' : GameData, d'.id = d.id →
      create_game (create_game db (some d)).2 (some d') =
        (.conflict db.nextGameId, (create_game db (some d)).2)) := by
  have hnd : db.games.Nodup := hids.of_map
  have hle : (db.games.filter (fun g => g.igdb_id == some d.id)).length ≤ 1 := by
    refine length_filter_le_one hnd fun a ha b hb hpa hpb => ?_
    have ha' : a.igdb_id = some d.id := by simpa using hpa
    have hb' : b.igdb_id = some d.id := by simpa using hpb
    exact huniq a ha b hb (ha'.trans hb'.symm) (by simp [ha'])
  rcases hfind : db.games.find? (fun g => g.igdb_id == some d.id) with _ | existing
  · have hnone : ∀ g ∈ db.games, g.igdb_id ≠ some d.id := by
      intro g hg hcon
      have := List.find?_eq_none.mp hfind g hg
      simp [hcon] at this
    have hgames : (create_game db (some d)).2.games
        = db.games ++ [newGameRow db d] := by
      rcases hgen : d.genres with _ | gds <;> simp [create_game, hfind, hgen]
    have hres : (create_game db (some d)).1 = .created (newGameRow db d) := by
      rcases hgen : d.genres with _ | gds <;> simp [create_game, hfind, hgen]
    refine ⟨?_, ?_, ?_, ?_⟩
    · constructor
      · rintro ⟨g, hg, hgid⟩
        exact absurd hgid (hnone g hg)
      · rintro ⟨i, hi⟩
        rw [hres] at hi
        cases hi
    · intro g hg hgid
      exact absurd hgid (hnone g hg)
    · rw [hgames, List.filter_append]
      have h1 : db.games.filter (fun g => g.igdb_id == some d.id) = [] :=
        List.filter_eq_nil_iff.mpr fun g hg => by simp [hnone g hg]
      have h2 : (newGameRow db d).igdb_id = some d.id := rfl
      simp [h1, h2]
    · intro _ d' hd'
      have hfind2 : (create_game db (some d)).2.games.find?
          (fun g => g.igdb_id == some d'.id) = some (newGameRow db d) := by
        rw [hgames, hd', find?_append_of_none hfind]
        simp [newGameRow]
      generalize hdb1 : (create_game db (some d)).2 = db1 at hfind2 ⊢
      simp [create_game, hfind2, newGameRow]
  · have hmeme := List.mem_of_find?_eq_some hfind
    have hpe : existing.igdb_id = some d.id := by
      simpa using List.find?_some hfind
    have hres : create_game db (some d) = (.conflict existing.id, db) := by
      simp [create_game, hfind]
    refine ⟨?_, ?_, ?_, ?_⟩
    · exact ⟨fun _ => ⟨existing.id, by rw [hres]⟩, fun _ => ⟨existing, hmeme, hpe⟩⟩
    · intro g hg hgid
      have hge : g = existing :=
        huniq g hg existing hmeme (hgid.trans hpe.symm) (by simp [hgid])
      rw [hres, hge]
      exact ⟨rfl, rfl⟩
    · rw [hres]
      show (db.games.filter (fun g => g.igdb_id == some d.id)).length = 1
      have hmemf : existing ∈ db.games.filter (fun g => g.igdb_id == some d.id) :=
        List.mem_filter.mpr ⟨hmeme, by simp [hpe]⟩
      have := List.length_pos_of_mem hmemf
      omega
    · intro habs
      exact absurd hpe (habs existing hmeme)

/-- C3 witness: resubmitting the test game's external id 12345 to the sample
store answers Conflict with the stored row's id 1 and leaves the store as it
was. -/
theorem create_game_external_id_unique_witness :
    (create_game dbW (some ⟨12345, "New Game", some "desc",
        none, none, none, none, none⟩)).1 = .conflict 1 ∧
    (create_game dbW (some ⟨12345, "New Game", some "desc",
        none, none, none, none, none⟩)).2 = dbW := by
  have h := (create_game_external_id_unique dbW
    ⟨12345, "New Game", some "desc", none, none, none, none, none⟩
    (by decide) (by decide)).2.1 gameA (by decide) (by decide)
  exact h

/-! ## C4 — genre upsert never duplicates a name -/

/-- The genre loop only appends rows: the rows present before it survive in
place. -/
theorem upsertGenres_genres_eq_append (gs : List Genre) (nid : Nat) (ns : List String) :
    ∃ tail, (upsertGenres gs nid ns).1 = gs ++ tail := by
  induction ns generalizing gs nid with
  | nil => exact ⟨[], by simp [upsertGenres]⟩
  | cons n rest ih =>
    rcases hfind : gs.find? (fun g => g.name == n) with _ | g
    · obtain ⟨tail, ht⟩ := ih (gs ++ [⟨nid, n, none⟩]) (nid + 1)
      exact ⟨⟨nid, n, none⟩ :: tail, by simp [upsertGenres, hfind, ht]⟩
    · obtain ⟨tail, ht⟩ := ih gs nid
      exact ⟨tail, by simp [upsertGenres, hfind, ht]⟩

/-- The genre loop preserves the `genre.name` unique constraint: it creates a
row only after the lookup by name failed. -/
theorem upsertGenres_names_nodup {gs : List Genre} {nid : Nat} {ns : List String}
    (h : (gs.map Genre.name).Nodup) :
    ((upsertGenres gs nid ns).1.map Genre.name).Nodup := by
  induction ns generalizing gs nid with
  | nil => simpa [upsertGenres] using h
  | cons n rest ih =>
    rcases hfind : gs.find? (fun g => g.name == n) with _ | g
    · have hnotin : n ∉ gs.map Genre.name := by
        intro hmem
        obtain ⟨g, hg, hgn⟩ := List.mem_map.mp hmem
        have := List.find?_eq_none.mp hfind g hg
        simp [hgn] at this
      have h' : ((gs ++ [(⟨nid, n, none⟩ : Genre)]).map Genre.name).Nodup := by
        rw [List.map_append]
        refine List.Nodup.append h (List.nodup_singleton n) ?_
        intro a ha hb
        simp only [List.map_cons, List.map_nil, List.mem_singleton] at hb
        exact hnotin (hb ▸ ha)
      simpa [upsertGenres, hfind] using ih h'
    · simpa [upsertGenres, hfind] using ih h

/-- Every name supplied to the genre loop ends up with a row of that name
whose id is among the association ids handed back to the game. -/
theorem upsertGenres_mem_assoc (gs : List Genre) (nid : Nat) {ns : List String}
    {nm : String} (h : nm ∈ ns) :
    ∃ g ∈ (upsertGenres gs nid ns).1, g.name = nm ∧
      g.id ∈ (upsertGenres gs nid ns).2.2 := by
  induction ns generalizing gs nid with
  | nil => cases h
  | cons n rest ih =>
    rcases hfind : gs.find? (fun g => g.name == n) with _ | g
    · rcases List.mem_cons.mp h with rfl | hrest
      · obtain ⟨tail, ht⟩ :=
          upsertGenres_genres_eq_append (gs ++ [⟨nid, nm, none⟩]) (nid + 1) rest
        refine ⟨⟨nid, nm, none⟩, ?_, rfl, ?_⟩
        · simp [upsertGenres, hfind, ht]
        · simp [upsertGenres, hfind]
      · obtain ⟨g', hg', hn', hid'⟩ := ih (gs ++ [(⟨nid, n, none⟩ : Genre)]) (nid + 1) hrest
        exact ⟨g', by simp [upsertGenres, hfind, hg'], hn',
          by simp [upsertGenres, hfind, hid']⟩
    · rcases List.mem_cons.mp h with rfl | hrest
      · have hgname : g.name = nm := by simpa using List.find?_some hfind
        have hgmem : g ∈ gs := List.mem_of_find?_eq_some hfind
        obtain ⟨tail, ht⟩ := upsertGenres_genres_eq_append gs nid rest
        refine ⟨g, ?_, hgname, ?_⟩
        · simp only [upsertGenres, hfind, ht]
          exact List.mem_append_left tail hgmem
        · simp [upsertGenres, hfind]
      · obtain ⟨g', hg', hn', hid'⟩ := ih gs nid hrest
        exact ⟨g', by simp [upsertGenres, hfind, hg'], hn',
          by simp [upsertGenres, hfind, hid']⟩

/-- Under the name unique constraint, a present name is carried by exactly
one row. -/
theorem length_filter_name_eq_one {l : List Genre} {g : Genre} {nm : String}
    (h : (l.map Genre.name).Nodup) (hg : g ∈ l) (hnm : g.name = nm) :
    (l.filter (fun x => x.name == nm)).length = 1 := by
  have hle : (l.filter (fun x => x.name == nm)).length ≤ 1 :=
    length_filter_le_one h.of_map fun a ha b hb hpa hpb => by
      have ha' : a.name = nm := by simpa using hpa
      have hb' : b.name = nm := by simpa using hpb
      exact List.inj_on_of_nodup_map h ha hb (ha'.trans hb'.symm)
  have hmem : g ∈ l.filter (fun x => x.name == nm) :=
    List.mem_filter.mpr ⟨hg, by simp [hnm]⟩
  have := List.length_pos_of_mem hmem
  omega

/-- C4: genre upsert-by-name never duplicates a genre.  Both `create_game`
and `update_game` preserve the one-row-per-name invariant, and ingesting two
games that each supply the same genre name leaves exactly one row with that
name, associated (through `game_genre`) with both created games. -/
theorem genre_upsert_unique (db : DB) (d1 d2 : GameData) (n : String)
    (hnames : (db.genres.map Genre.name).Nodup)
    (hn1 : n ∈ (d1.genres.getD []).map GenreData.name)
    (hn2 : n ∈ (d2.genres.getD []).map GenreData.name)
    (hf1 : ∀ g ∈ db.games, g.igdb_id ≠ some d1.id)
    (hf2 : ∀ g ∈ db.games, g.igdb_id ≠ some d2.id)
    (hd : d2.id ≠ d1.id) :
    (∀ db' : DB, ∀ data, (db'.genres.map Genre.name).Nodup →
      ((create_game db' data).2.genres.map Genre.name).Nodup) ∧
    (∀ db' : DB, ∀ gid u, (db'.genres.map Genre.name).Nodup →
      ((update_game db' gid u).2.genres.map Genre.name).Nodup) ∧
    ((create_game (create_game db (some d1)).2 (some d2)).2.genres.filter
        (fun g => g.name == n)).length = 1 ∧
    ∃ g ∈ (create_game (create_game db (some d1)).2 (some d2)).2.genres,
      g.name = n ∧
      (db.nextGameId, g.id) ∈
        (create_game (create_game db (some d1)).2 (some d2)).2.gameGenres ∧
      (db.nextGameId + 1, g.id) ∈
        (create_game (create_game db (some d1)).2 (some d2)).2.gameGenres := by
  have hcreate : ∀ db' : DB, ∀ data, (db'.genres.map Genre.name).Nodup →
      ((create_game db' data).2.genres.map Genre.name).Nodup := by
    intro db' data hnd
    rcases data with _ | d
    · simpa [create_game] using hnd
    · rcases hfind : db'.games.find? (fun g => g.igdb_id == some d.id) with _ | ex
      · rcases hgen : d.genres with _ | gds
        · simpa [create_game, hfind, hgen] using hnd
        · simpa [create_game, hfind, hgen] using upsertGenres_names_nodup hnd
      · simpa [create_game, hfind] using hnd
  have hupdate : ∀ db' : DB, ∀ gid u, (db'.genres.map Genre.name).Nodup →
      ((update_game db' gid u).2.genres.map Genre.name).Nodup := by
    intro db' gid u hnd
    rcases hfind : db'.findGame gid with _ | g
    · simpa [update_game, hfind] using hnd
    · rcases hgen : u.genres with _ | names
      · simpa [update_game, hfind, hgen] using hnd
      · simpa [update_game, hfind, hgen] using upsertGenres_names_nodup hnd
  refine ⟨hcreate, hupdate, ?_⟩
  rcases hg1 : d1.genres with _ | l1
  · rw [hg1] at hn1; cases hn1
  rcases hg2 : d2.genres with _ | l2
  · rw [hg2] at hn2; cases hn2
  rw [hg1] at hn1
  rw [hg2] at hn2
  simp only [Option.getD_some] at hn1 hn2
  have find1 : db.games.find? (fun g => g.igdb_id == some d1.id) = none :=
    List.find?_eq_none.mpr fun g hg => by simp [hf1 g hg]
  have hdb1genres : (create_game db (some d1)).2.genres
      = (upsertGenres db.genres db.nextGenreId (l1.map GenreData.name)).1 := by
    simp [create_game, find1, hg1]
  have hdb1gg : (create_game db (some d1)).2.gameGenres
      = db.gameGenres
        ++ (upsertGenres db.genres db.nextGenreId (l1.map GenreData.name)).2.2.map
            (fun i => (db.nextGameId, i)) := by
    simp [create_game, find1, hg1, newGameRow]
  have hdb1games : (create_game db (some d1)).2.games
      = db.games ++ [newGameRow db d1] := by
    simp [create_game, find1, hg1]
  have hdb1next : (create_game db (some d1)).2.nextGameId = db.nextGameId + 1 := by
    simp [create_game, find1, hg1]
  have hdb1ngen : (create_game db (some d1)).2.nextGenreId
      = (upsertGenres db.genres db.nextGenreId (l1.map GenreData.name)).2.1 := by
    simp [create_game, find1, hg1]
  generalize hdb1 : (create_game db (some d1)).2 = db1 at *
  have find2 : db1.games.find? (fun g => g.igdb_id == some d2.id) = none := by
    refine List.find?_eq_none.mpr fun g hg => ?_
    rw [hdb1games] at hg
    rcases List.mem_append.mp hg with hO | hN
    · simp [hf2 g hO]
    · rw [List.mem_singleton] at hN
      subst hN
      simp [newGameRow, Ne.symm hd]
  have hdb2genres : (create_game db1 (some d2)).2.genres
      = (upsertGenres db1.genres db1.nextGenreId (l2.map GenreData.name)).1 := by
    simp [create_game, find2, hg2]
  have hdb2gg : (create_game db1 (some d2)).2.gameGenres
      = db1.gameGenres
        ++ (upsertGenres db1.genres db1.nextGenreId (l2.map GenreData.name)).2.2.map
            (fun i => (db1.nextGameId, i)) := by
    simp [create_game, find2, hg2, newGameRow]
  obtain ⟨gR, hgRmem, hgRname, hgRid⟩ :=
    upsertGenres_mem_assoc db.genres db.nextGenreId hn1
  rw [← hdb1genres] at hgRmem
  obtain ⟨gR2, hgR2mem, hgR2name, hgR2id⟩ :=
    upsertGenres_mem_assoc db1.genres db1.nextGenreId hn2
  obtain ⟨tail2, htail2⟩ :=
    upsertGenres_genres_eq_append db1.genres db1.nextGenreId (l2.map GenreData.name)
  have hgRmem2 : gR ∈ (upsertGenres db1.genres db1.nextGenreId (l2.map GenreData.name)).1 := by
    rw [htail2]
    exact List.mem_append_left tail2 hgRmem
  have hnd1 : (db1.genres.map Genre.name).Nodup := by
    rw [hdb1genres]
    exact upsertGenres_names_nodup hnames
  have hnd2 : ((upsertGenres db1.genres db1.nextGenreId (l2.map GenreData.name)).1.map
      Genre.name).Nodup := upsertGenres_names_nodup hnd1
  have hgeq : gR2 = gR :=
    List.inj_on_of_nodup_map hnd2 hgR2mem hgRmem2 (hgR2name.trans hgRname.symm)
  refine ⟨?_, gR, ?_, hgRname, ?_, ?_⟩
  · rw [hdb2genres]
    exact length_filter_name_eq_one hnd2 hgRmem2 hgRname
  · rw [hdb2genres]
    exact hgRmem2
  · rw [hdb2gg, hdb1gg]
    refine List.mem_append_left _ (List.mem_append_right _ ?_)
    exact List.mem_map.mpr ⟨gR.id, hgRid, rfl⟩
  · rw [hdb2gg, ← hdb1next]
    refine List.mem_append_right _ ?_
    exact List.mem_map.mpr ⟨gR.id, hgeq ▸ hgR2id, rfl⟩

/-- C4 witness: ingesting two games that both name "RPG" into the empty store
leaves exactly one "RPG" row. -/
theorem genre_upsert_unique_witness :
    ((create_game (create_game db0 (some dRpg1)).2 (some dRpg2)).2.genres.filter
      (fun g => g.name == "RPG")).length = 1 := by
  have h := genre_upsert_unique db0 dRpg1 dRpg2 "RPG" (by decide) (by decide)
    (by decide) (by decide) (by decide) (by decide)
  exact h.2.2.1

/-! ## C5 — game deletion cascades completely -/

/-- C5: deleting an existing game succeeds, after which no owned or
now-playing pair and no comment references the deleted id, the row is gone
(fetching the id answers NotFound), and rows about other games survive;
deleting a non-existent id answers NotFound and changes nothing. -/
theorem delete_game_cascade (db : DB) (gid : Nat)
    (hgame : ∃ g ∈ db.games, g.id = gid) :
    (∃ resp, (delete_game db gid).1 = some resp ∧
      resp.success = true ∧ resp.deleted = gid) ∧
    (∀ p ∈ (delete_game db gid).2.owned, p.2 ≠ gid) ∧
    (∀ p ∈ (delete_game db gid).2.nowPlaying, p.2 ≠ gid) ∧
    (∀ c ∈ (delete_game db gid).2.comments, c.game_id ≠ gid) ∧
    (∀ g ∈ (delete_game db gid).2.games, g.id ≠ gid) ∧
    get_game_details (delete_game db gid).2 gid = none ∧
    (∀ p ∈ db.owned, p.2 ≠ gid → p ∈ (delete_game db gid).2.owned) ∧
    (∀ p ∈ db.nowPlaying, p.2 ≠ gid → p ∈ (delete_game db gid).2.nowPlaying) ∧
    (∀ c ∈ db.comments, c.game_id ≠ gid → c ∈ (delete_game db gid).2.comments) ∧
    (∀ g ∈ db.games, g.id ≠ gid → g ∈ (delete_game db gid).2.games) ∧
    (∀ gid', (∀ g ∈ db.games, g.id ≠ gid') → delete_game db gid' = (none, db)) := by
  obtain ⟨g, hg, hid⟩ := hgame
  obtain ⟨g', hf, -, -⟩ := findGame_of_mem hg hid
  have hred : delete_game db gid =
      (some ⟨true, gid⟩,
       { db with
          owned := db.owned.filter (fun p => p.2 != gid),
          nowPlaying := db.nowPlaying.filter (fun p => p.2 != gid),
          comments := db.comments.filter (fun c => c.game_id != gid),
          games := db.games.filter (fun g => g.id != gid),
          gameGenres := db.gameGenres.filter (fun p => p.1 != gid) }) := by
    simp [delete_game, hf]
  rw [hred]
  refine ⟨⟨⟨true, gid⟩, rfl, rfl, rfl⟩, ?_, ?_, ?_, ?_, ?_, ?_, ?_, ?_, ?_, ?_⟩
  · intro p hp
    simpa using (List.mem_filter.mp hp).2
  · intro p hp
    simpa using (List.mem_filter.mp hp).2
  · intro c hc
    simpa using (List.mem_filter.mp hc).2
  · intro g hgm
    simpa using (List.mem_filter.mp hgm).2
  · show get_game_details
      { db with
        owned := db.owned.filter (fun p => p.2 != gid),
        nowPlaying := db.nowPlaying.filter (fun p => p.2 != gid),
        comments := db.comments.filter (fun c => c.game_id != gid),
        games := db.games.filter (fun g => g.id != gid),
        gameGenres := db.gameGenres.filter (fun p => p.1 != gid) } gid = none
    have hnone : (db.games.filter (fun g => g.id != gid)).find?
        (fun g => g.id == gid) = none := by
      refine List.find?_eq_none.mpr fun x hx => ?_
      have := (List.mem_filter.mp hx).2
      simpa using this
    simp [get_game_details, DB.findGame, hnone]
  · intro p hp hne
    exact List.mem_filter.mpr ⟨hp, by simpa using hne⟩
  · intro p hp hne
    exact List.mem_filter.mpr ⟨hp, by simpa using hne⟩
  · intro c hc hne
    exact List.mem_filter.mpr ⟨hc, by simpa using hne⟩
  · intro g hgm hne
    exact List.mem_filter.mpr ⟨hgm, by simpa using hne⟩
  · intro gid' habs
    have hn : db.games.find? (fun g => g.id == gid') = none :=
      List.find?_eq_none.mpr fun x hx => by simp [habs x hx]
    simp [delete_game, DB.findGame, hn]

/-- C5 witness: deleting game 2 of the sample store (owned, now playing, and
commented on) leaves no reference to it and makes its fetch a NotFound. -/
theorem delete_game_cascade_witness :
    (∀ p ∈ (delete_game dbW 2).2.owned, p.2 ≠ 2) ∧
    (∀ c ∈ (delete_game dbW 2).2.comments, c.game_id ≠ 2) ∧
    get_game_details (delete_game dbW 2).2 2 = none := by
  have h := delete_game_cascade dbW 2 (by decide)
  exact ⟨h.2.1, h.2.2.2.1, h.2.2.2.2.2.1⟩

/-! ## C6 — comment creation -/

/-- C6 counterexample: with game 1 and user 1 present, a comment whose
content is the empty string is accepted — the call returns the 201 response
with the generated id, timestamp and author summary, and the empty-content
row is persisted.  There is no ValidationError for empty content anywhere in
`add_comment`. -/
theorem add_comment_accepts_empty_content :
    (add_comment dbW 1 (some ⟨1, ""⟩) 5).1 = some ⟨2, "", 5, 1, "testuser"⟩ ∧
    (add_comment dbW 1 (some ⟨1, ""⟩) 5).2.comments
      = dbW.comments ++ [⟨2, "", 5, 1, 1⟩] := by
  decide

/-- C6 amended: `add_comment` fails as NotFound — persisting nothing — when
the game id does not exist (the commit's integrity failure is answered
`"Game not found"`), and on success (game and user present) it persists the
comment and returns the generated id, the creation timestamp and the author
summary; it performs no content validation, so the success case covers the
empty string as well. -/
theorem add_comment_amended (db : DB) (gid : Nat) (d : CommentData) (now : Nat) :
    ((∀ g ∈ db.games, g.id ≠ gid) → add_comment db gid (some d) now = (none, db)) ∧
    (∀ u, db.users.find? (fun x => x.id == d.user_id) = some u →
      (∃ g ∈ db.games, g.id = gid) →
      add_comment db gid (some d) now =
        (some ⟨db.nextCommentId, d.content, now, u.id, u.username⟩,
         { db with
            comments := db.comments
              ++ [⟨db.nextCommentId, d.content, now, d.user_id, gid⟩],
            nextCommentId := db.nextCommentId + 1 })) := by
  constructor
  · intro habs
    have hn : db.findGame gid = none :=
      List.find?_eq_none.mpr fun x hx => by simp [habs x hx]
    simp [add_comment, hn]
  · intro u hu hex
    obtain ⟨g, hg, hid⟩ := hex
    obtain ⟨g', hf, -, -⟩ := findGame_of_mem hg hid
    simp [add_comment, hf, hu]

/-- C6 witness: a comment on the missing game id 9999 is rejected without a
persisted row, while the same comment on game 1 is persisted and echoed. -/
theorem add_comment_amended_witness :
    add_comment dbW 9999 (some ⟨1, "hi"⟩) 7 = (none, dbW) ∧
    add_comment dbW 1 (some ⟨1, "hi"⟩) 7 =
      (some ⟨2, "hi", 7, 1, "testuser"⟩,
       { dbW with
          comments := dbW.comments ++ [⟨2, "hi", 7, 1, 1⟩],
          nextCommentId := 3 }) := by
  refine ⟨(add_comment_amended dbW 9999 ⟨1, "hi"⟩ 7).1 (by decide), ?_⟩
  exact ((add_comment_amended dbW 1 ⟨1, "hi"⟩ 7).2 userA (by decide)
    (by decide)).trans (by decide)

/-! ## C7 — top games ranking -/

/-- C7: `get_top_games` returns at most 10 entries, sorted by descending
player count (every earlier entry counts at least as many distinct
now-playing users as every later one), and each entry is a stored game paired
with its number of distinct now-playing users, which is positive (the inner
join drops unplayed games). -/
theorem top_games_ranked (db : DB) (hnd : db.nowPlaying.Nodup) :
    (get_top_games db).length ≤ 10 ∧
    (get_top_games db).Sorted topOrder ∧
    ∀ p ∈ get_top_games db, p.1 ∈ db.games ∧ 0 < p.2 ∧
      p.2 = ((db.nowPlaying.filter (fun q => q.2 == p.1.id)).map Prod.fst).dedup.length := by
  refine ⟨?_, ?_, ?_⟩
  · exact List.length_take_le 10 _
  · exact List.Pairwise.sublist (List.take_sublist 10 _)
      (List.sorted_insertionSort topOrder _)
  · intro p hp
    have hp1 := List.mem_of_mem_take hp
    have hp2 : p ∈ (db.games.filter (fun g => 0 < playerCount db g.id)).map
        (fun g => (g, playerCount db g.id)) :=
      (List.perm_insertionSort topOrder _).mem_iff.mp hp1
    obtain ⟨g, hgf, rfl⟩ := List.mem_map.mp hp2
    have hgm := List.mem_filter.mp hgf
    refine ⟨hgm.1, by simpa using hgm.2, ?_⟩
    have hfil : (db.nowPlaying.filter (fun q => q.2 == g.id)).Nodup := hnd.filter _
    have hmapnd : ((db.nowPlaying.filter (fun q => q.2 == g.id)).map Prod.fst).Nodup := by
      refine List.Nodup.map_on ?_ hfil
      intro x hx y hy hxy
      have hx2 : x.2 = g.id := by simpa using (List.mem_filter.mp hx).2
      have hy2 : y.2 = g.id := by simpa using (List.mem_filter.mp hy).2
      exact Prod.ext hxy (hx2.trans hy2.symm)
    rw [List.dedup_eq_self.mpr hmapnd, List.length_map]
    rfl

/-- C7 witness: the ranking of the sample store is short enough and sorted. -/
theorem top_games_ranked_witness :
    (get_top_games dbW).length ≤ 10 ∧ (get_top_games dbW).Sorted topOrder := by
  have h := top_games_ranked dbW (by decide)
  exact ⟨h.1, h.2.1⟩

/-! ## C8 — cover URL normalisation -/

/-- C8 counterexample: a present, non-empty cover dict without an `image_id`
key still yields a built URL — the interpolation renders the missing
identifier as the literal `"None"` instead of returning empty/absent. -/
theorem cover_url_builds_without_image_id :
    process_cover_url (some coverNoImage)
      = some "https://images.igdb.com/igdb/image/upload/t_cover_big/None.jpg" ∧
    process_cover_url (some coverNoImage) ≠ none := by
  decide

/-- C8 amended: the cover URL is absent exactly when the cover dict is falsy
(absent or empty); any truthy cover dict yields the URL built from the fixed
base path, the fixed size token and the `image_id` value — with a missing
`image_id` rendered as the literal `"None"` rather than suppressing the
URL. -/
theorem cover_url_amended (c : List (String × String)) :
    process_cover_url none = none ∧
    process_cover_url (some []) = none ∧
    (∀ i, c.lookup "image_id" = some i → c ≠ [] →
      process_cover_url (some c) = some (coverBase ++ i ++ ".jpg")) ∧
    (c.lookup "image_id" = none → c ≠ [] →
      process_cover_url (some c) = some (coverBase ++ "None" ++ ".jpg")) := by
  refine ⟨rfl, rfl, ?_, ?_⟩
  · intro i hi hne
    simp [process_cover_url, List.isEmpty_iff, hne, hi, pyFormat]
  · intro hi hne
    simp [process_cover_url, List.isEmpty_iff, hne, hi, pyFormat]

/-- C8 witness: a cover with an `image_id` yields its built URL, and the
keyless cover yields the `"None"` URL. -/
theorem cover_url_amended_witness :
    process_cover_url (some [("image_id", "abc")])
      = some (coverBase ++ "abc" ++ ".jpg") ∧
    process_cover_url (some coverNoImage)
      = some (coverBase ++ "None" ++ ".jpg") :=
  ⟨(cover_url_amended [("image_id", "abc")]).2.2.1 "abc" (by decide) (by decide),
   (cover_url_amended coverNoImage).2.2.2 (by decide) (by decide)⟩

/-! ## C9 — studio name resolution -/

/-- When every developer-flagged response record joins to an original record
with a company name, the loop succeeds and collects those names in order. -/
theorem companyLoop_ok {companies : List InvolvedCompany} {resp : List FlagRec} :
    ∀ acc : List String,
      (∀ r ∈ resp, r.developer = true →
        ∃ c, findCompany companies r.id = .ok c ∧ ∃ nm, c.companyName = some nm) →
      companyLoop companies resp acc
        = .ok (acc ++ resp.filterMap (matchedName companies)) := by
  induction resp with
  | nil => intro acc _; simp [companyLoop]
  | cons r rest ih =>
    intro acc h
    by_cases hdev : r.developer
    · obtain ⟨c, hc, nm, hnm⟩ := h r (List.mem_cons_self r rest) hdev
      have hrest := ih (acc ++ [nm])
        fun r' hr' => h r' (List.mem_cons_of_mem r hr')
      simp [companyLoop, hdev, hc, hnm, hrest, matchedName, List.filterMap_cons]
    · have hrest := ih acc fun r' hr' => h r' (List.mem_cons_of_mem r hr')
      simp [companyLoop, hdev, hrest, matchedName, List.filterMap_cons]

/-- One developer-flagged response record without a matching original record
makes the whole loop raise, whatever has been accumulated. -/
theorem companyLoop_error {companies : List InvolvedCompany} {resp : List FlagRec} :
    ∀ acc : List String,
      (∃ r ∈ resp, r.developer = true ∧ findCompany companies r.id = .error ()) →
      companyLoop companies resp acc = .error () := by
  induction resp with
  | nil =>
    rintro acc ⟨r, hr, -⟩
    cases hr
  | cons r0 rest ih =>
    rintro acc ⟨r, hr, hdev, herr⟩
    rcases List.mem_cons.mp hr with rfl | hrest
    · simp [companyLoop, hdev, herr]
    · by_cases hdev0 : r0.developer
      · rcases hc : findCompany companies r0.id with e | c
        · simp [companyLoop, hdev0, hc]
        · rcases hnm : c.companyName with _ | nm
          · simp [companyLoop, hdev0, hc, hnm]
          · simp only [companyLoop, hdev0, hc, hnm, if_true]
            exact ih _ ⟨r, hrest, hdev, herr⟩
      · simp only [companyLoop, hdev0, if_false, Bool.false_eq_true]
        exact ih _ ⟨r, hrest, hdev, herr⟩

/-- C9 counterexample: the response flags ids 1 and 2 as developers; id 1
joins to "Alpha Studio" but id 2 has no matching original record, and the
unguarded `next(...)` raises, so the whole result degrades to `[]` — the
matched name is not returned, refuting the claimed tolerance. -/
theorem studio_names_degrade_on_unmatched :
    process_company_names [coAlpha] (.ok respUnmatched) = [] ∧
    matchedName [coAlpha] ⟨some 1, true⟩ = some "Alpha Studio" ∧
    (⟨some 1, true⟩ : FlagRec) ∈ respUnmatched := by
  decide

/-- C9 amended: `_process_company_names` is non-fatal on lookup failure
(returns `[]`); when the lookup succeeds and every developer-flagged response
record joins to an original record carrying a company name, it returns
exactly the joined names; but a developer-flagged response record with no
matching original record aborts the join and the whole result — including
any already-matched names — degrades to `[]`. -/
theorem studio_names_amended (companies : List InvolvedCompany) (resp : List FlagRec)
    (hne : companies.filterMap InvolvedCompany.id ≠ []) :
    process_company_names companies (.error ()) = [] ∧
    ((∀ r ∈ resp, r.developer = true →
        ∃ c, findCompany companies r.id = .ok c ∧ ∃ nm, c.companyName = some nm) →
      process_company_names companies (.ok resp)
        = resp.filterMap (matchedName companies)) ∧
    ((∃ r ∈ resp, r.developer = true ∧ findCompany companies r.id = .error ()) →
      process_company_names companies (.ok resp) = []) := by
  refine ⟨?_, ?_, ?_⟩
  · simp [process_company_names, List.isEmpty_iff, hne]
  · intro h
    simp [process_company_names, List.isEmpty_iff, hne, companyLoop_ok [] h]
  · intro h
    simp [process_company_names, List.isEmpty_iff, hne, companyLoop_error [] h]

/-- C9 witness: a failed lookup degrades to `[]`, and a clean join returns
the developer's name. -/
theorem studio_names_amended_witness :
    process_company_names [coAlpha] (.error ()) = [] ∧
    process_company_names [coAlpha] (.ok [⟨some 1, true⟩]) = ["Alpha Studio"] := by
  have h := studio_names_amended [coAlpha] [⟨some 1, true⟩] (by decide)
  refine ⟨h.1, ?_⟩
  have hall : ∀ r ∈ [(⟨some 1, true⟩ : FlagRec)], r.developer = true →
      ∃ c, findCompany [coAlpha] r.id = .ok c ∧ ∃ nm, c.companyName = some nm := by
    intro r hr _
    rw [List.mem_singleton] at hr
    subst hr
    exact ⟨coAlpha, rfl, "Alpha Studio", rfl⟩
  rw [h.2.1 hall]
  rfl

/-! ## C10 — minimum search query length -/

/-- C10: a query shorter than 3 characters (the empty string included) makes
the search route answer the empty list without contacting the metadata
service — the guard runs before `IGDBApi()` is constructed, so no upstream
request is issued. -/
theorem search_games_min_length {α : Type} (query : String)
    (upstream : String → List α) (h : query.length < 3) :
    search_games_route query upstream = ([], false) := by
  simp [search_games_route, h]

/-- C10 witness: two short queries answer `([], not contacted)` even though
the upstream function would return results. -/
theorem search_games_min_length_witness :
    search_games_route "ab" (fun q => [q ++ "-result"]) = ([], false) ∧
    search_games_route "" (fun q => [q]) = ([], false) :=
  ⟨search_games_min_length "ab" _ (by decide),
   search_games_min_length "" _ (by decide)⟩

end Kestrel
